import Mathlib

/-!
Verification of the merge-and-localize static-library pipeline
(`scripts/static_link.py`): symbol extraction from toolchain text output,
the PIC-thunk exclusion, command construction, and the staged/atomic
publish sequence of `main`, embedded as pure Lean functions over an
explicit oracle of external-tool exit codes and output lines.
-/

namespace StaticLink

/-- Python 2 ASCII word character, the regex class `\w` = `[a-zA-Z0-9_]`. -/
def isWordChar (c : Char) : Bool :=
  (('a' ≤ c && c ≤ 'z') || ('A' ≤ c && c ≤ 'Z') || ('0' ≤ c && c ≤ '9') || c == '_')

/-- Python 2 ASCII whitespace, the regex class `\s`; `\S` is its complement. -/
def isPySpace (c : Char) : Bool :=
  c == ' ' || c == '\t' || c == '\n' || c == '\r' || c == '\x0b' || c == '\x0c'

/-- Does `l` start with the pattern `pat`? (first argument is the pattern). -/
def listStartsWith : List Char → List Char → Bool
  | [], _ => true
  | _ :: _, [] => false
  | p :: ps, c :: cs => p == c && listStartsWith ps cs

/-- Does `l` end with the pattern `pat`? -/
def listEndsWith (pat l : List Char) : Bool :=
  listStartsWith pat.reverse l.reverse

/-- The longest suffix of `cs` consisting of word characters: the text a
trailing `(\w+)$` group captures. -/
def trailingWordRun (cs : List Char) : List Char :=
  (cs.reverse.takeWhile isWordChar).reverse

/-- The search for the pattern `\.hidden (\w+)$` from `iter_hidden_symbols`
(line 53): the match exists exactly when the line ends in a nonempty run
of word characters immediately preceded by the literal text `.hidden `
(the captured group is forced to be the maximal trailing word run, since
the character before the group must be the space of `.hidden `). -/
def hiddenLineSymbol (line : String) : Option String :=
  if trailingWordRun line.toList = [] then none
  else if listEndsWith ".hidden ".toList
      (line.toList.take (line.toList.length - (trailingWordRun line.toList).length)) then
    some ⟨trailingWordRun line.toList⟩
  else none

/-- The search for the pattern `\b(\w+)$` from `iter_global_symbols` (line 83):
the match exists exactly when the line ends in a nonempty word-character
run (the word boundary before the maximal trailing run always holds). -/
def globalLineSymbol (line : String) : Option String :=
  if trailingWordRun line.toList = [] then none
  else some ⟨trailingWordRun line.toList⟩

/-- The literal part `get_pc_thunk` of the exclusion regex. -/
def thunkPat : List Char := "get_pc_thunk".toList

/-- The `\S*get_pc_thunk` tail of the exclusion regex: true when `cs` can
be split as `mid ++ "get_pc_thunk" ++ rest` with `mid` all non-space. -/
def thunkSearch : List Char → Bool
  | [] => false
  | c :: rest => listStartsWith thunkPat (c :: rest) || (!isPySpace c && thunkSearch rest)

/-- The anchored match of the pattern `__\S*get_pc_thunk` from `iter_hidden_symbols`
(line 58): anchored at the start of the symbol. -/
def pcThunkMatch (s : String) : Bool :=
  listStartsWith "__".toList s.toList && thunkSearch (s.toList.drop 2)

/-- Loop body of `iter_hidden_symbols` (lines 52–62): extract the
`.hidden`-marked symbol, then drop GCC-internal PIC-thunk symbols. -/
def hiddenPassLine (line : String) : Option String :=
  match hiddenLineSymbol line with
  | none => none
  | some s => if pcThunkMatch s then none else some s

/-- All symbols the hidden pass yields from an objdump output stream. -/
def iterHiddenList (lines : List String) : List String :=
  lines.filterMap hiddenPassLine

/-- All symbols the global pass yields from an nm output stream
(lines 81–85). -/
def iterGlobalList (lines : List String) : List String :=
  lines.filterMap globalLineSymbol

/-- The external tools the pipeline invokes, in pipeline order. -/
inductive Tool
  | link | objdump | nm | objcopy | ar | ranlib | mv | rm
  deriving DecidableEq, Repr

/-- `subprocess.CalledProcessError`: the failing command and its exit
code, tagged with the invoking pipeline step. -/
structure ToolError where
  tool : Tool
  cmd : List String
  code : Nat
  deriving DecidableEq, Repr

/-- `run` (lines 38–41): `subprocess.check_call` succeeds on exit code
zero and otherwise raises an error carrying the command and exit code. -/
def runTool (t : Tool) (cmd : List String) (exit : Nat) : Except ToolError Unit :=
  if exit = 0 then .ok () else .error ⟨t, cmd, exit⟩

/-- The objdump command of `iter_hidden_symbols` (line 49). -/
def objdumpCmd (objdump_path object_file : String) : List String :=
  [objdump_path, "-t", object_file]

/-- The nm command of `iter_global_symbols` (lines 73–78). -/
def nmCmd (nm_path object_file : String) : List String :=
  [nm_path, "--defined-only", "--extern-only", "--print-file-name", object_file]

/-- `iter_hidden_symbols` (lines 44–66) as a checked computation: the
whole stream is consumed first, and only after exhaustion is the exit
code checked; a non-zero exit raises with the command and exit code. -/
def iter_hidden_symbols (objdump_path object_file : String) (lines : List String)
    (exit : Nat) : Except ToolError (List String) :=
  if exit = 0 then .ok (iterHiddenList lines)
  else .error ⟨.objdump, objdumpCmd objdump_path object_file, exit⟩

/-- `iter_global_symbols` (lines 69–89) as a checked computation. -/
def iter_global_symbols (nm_path object_file : String) (lines : List String)
    (exit : Nat) : Except ToolError (List String) :=
  if exit = 0 then .ok (iterGlobalList lines)
  else .error ⟨.nm, nmCmd nm_path object_file, exit⟩

/-- The validated configuration record `main` receives (lines 92–105).
`cflags` is the token list `shlex.split(cflags)` produces, and
`keep_global_regex` is the compiled keep-global pattern as its
`re.search` predicate over symbol names. -/
structure Config where
  cc : String
  cflags : List String
  objcopy : String
  objdump : String
  ar : String
  nm : String
  ranlib : String
  localize_hidden : Bool
  keep_global_regex : String → Bool
  is_final_link : Bool
  output : String
  archives : List String

/-- The environment of one run: the fresh directory `tempfile.mkdtemp`
returns, and for each external process its output lines and exit code
(tools whose output is not read contribute only an exit code). -/
structure ToolWorld where
  temp_dir : String
  linkExit : Nat
  objdumpLines : List String
  objdumpExit : Nat
  nmLines : List String
  nmExit : Nat
  objcopyExit : Nat
  arExit : Nat
  ranlibExit : Nat
  mvExit : Nat
  rmExit : Nat

/-- `os.path.split(p)[1]`: the part of the path after the last slash. -/
def basename (p : String) : String :=
  ⟨(p.toList.reverse.takeWhile (fun c => c ≠ '/')).reverse⟩

/-- `os.path.splitext(b)[0]` on a basename: drop the extension that
starts at the last dot, unless every character before that dot is
itself a dot. -/
def splitextRoot (b : String) : String :=
  match b.toList.reverse.dropWhile (fun c => c ≠ '.') with
  | [] => b
  | _ :: rest => if rest.any (fun c => c ≠ '.') then ⟨rest.reverse⟩ else b

/-- `os.path.join(a, b)` for one relative component. -/
def ospJoin (a b : String) : String :=
  if b.toList.head? = some '/' then b
  else if a = "" then b
  else if a.toList.getLast? = some '/' then a ++ b
  else a ++ "/" ++ b

/-- `output_archive_name` (line 110). -/
def output_archive_name (cfg : Config) : String := basename cfg.output

/-- `output_archive_name_wo_ext` (line 111). -/
def name_wo_ext (cfg : Config) : String := splitextRoot (output_archive_name cfg)

/-- `partial_link_path` (lines 114–115): the merged object inside the
working directory. -/
def merged_object_path (cfg : Config) (temp_dir : String) : String :=
  ospJoin temp_dir (name_wo_ext cfg ++ ".o")

/-- `symbol_list_path` (lines 116–117). -/
def symbol_list_path (cfg : Config) (temp_dir : String) : String :=
  ospJoin temp_dir (name_wo_ext cfg ++ ".locals")

/-- The staged archive path `join(temp_dir, output_archive_name)`
(lines 146–148). -/
def staged_path (cfg : Config) (temp_dir : String) : String :=
  ospJoin temp_dir (output_archive_name cfg)

/-- `link_command` (lines 119–132), built by the same successive list
extensions as the source. The Python expression
`is_final_link and -Wl,-Ur or -Wl,-r` (line 125) selects `-Wl,-Ur` exactly when
`is_final_link` is true. -/
def link_command (cfg : Config) (merged_path : String) : List String :=
  let c := [cfg.cc]
  let c := c ++ cfg.cflags
  let c := c ++ ["-nostartfiles", "-nodefaultlibs", "-Wl,--build-id=none",
                 (if cfg.is_final_link then "-Wl,-Ur" else "-Wl,-r"),
                 "-Wl,--whole-archive"]
  let c := c ++ cfg.archives
  c ++ ["-Wl,--no-whole-archive", "-o", merged_path]

/-- The symbol-list file after a loop that writes one symbol per line
(lines 136–138): each write appends one name. -/
def writeSyms (acc : List String) (syms : List String) : List String :=
  syms.foldl (fun a s => a ++ [s]) acc

/-- The symbol-list file after the global-pass loop (lines 140–143):
each yielded symbol is appended unless `re.search(keep_global_regex,
symbol)` matches, in which case the loop continues without writing. -/
def writeGlobals (keep : String → Bool) (acc : List String) (syms : List String) :
    List String :=
  syms.foldl (fun a s => if keep s then a else a ++ [s]) acc

/-- The complete demotion list the `with open(...)` block of `main`
writes (lines 135–143): the hidden pass (only when `localize_hidden`)
followed by the keep-filtered global pass. -/
def classifyOut (localize_hidden : Bool) (keep : String → Bool)
    (objdumpLines nmLines : List String) : List String :=
  writeGlobals keep
    (writeSyms [] (if localize_hidden then iterHiddenList objdumpLines else []))
    (iterGlobalList nmLines)

/-- The demotion list of one run, as a function of the configuration and
the tool outputs. -/
def classifyWorld (cfg : Config) (w : ToolWorld) : List String :=
  classifyOut cfg.localize_hidden cfg.keep_global_regex w.objdumpLines w.nmLines

/-- Symbolic file contents: what each pipeline step produces from its
input, plus unanalyzed preexisting content at the output path. -/
inductive FileData
  | preexisting (tag : String)
  | merged (archives : List String) (is_final_link : Bool)
  | localized (base : FileData) (syms : List String)
  | archived (member : FileData) (name : String)
  | indexed (a : FileData)
  deriving DecidableEq, Repr

/-- Contents of the private working directory. -/
structure TempFS where
  merged_object : Option FileData
  symbol_list : Option (List String)
  staged : Option FileData
  deriving DecidableEq, Repr

/-- The externally visible file-system state the pipeline touches: the
content at the final output path (if any) and the working directory
(if it exists). -/
structure FSState where
  finalOutput : Option FileData
  temp : Option TempFS
  deriving DecidableEq, Repr

/-- The merged object after the objcopy demotion step. -/
def demotedObject (cfg : Config) (w : ToolWorld) : FileData :=
  .localized (.merged cfg.archives cfg.is_final_link) (classifyWorld cfg w)

/-- The staged archive after archiving and index regeneration. -/
def stagedArtifact (cfg : Config) (w : ToolWorld) : FileData :=
  .indexed (.archived (demotedObject cfg w) (output_archive_name cfg))

/-- The objcopy command of `main` (line 145). -/
def objcopyCmd (cfg : Config) (w : ToolWorld) : List String :=
  [cfg.objcopy, "--localize-symbols", symbol_list_path cfg w.temp_dir,
   merged_object_path cfg w.temp_dir]

/-- The archiver command of `main` (line 146). -/
def arCmd (cfg : Config) (w : ToolWorld) : List String :=
  [cfg.ar, "cr", staged_path cfg w.temp_dir, merged_object_path cfg w.temp_dir]

/-- The indexer command of `main` (line 147). -/
def ranlibCmd (cfg : Config) (w : ToolWorld) : List String :=
  [cfg.ranlib, staged_path cfg w.temp_dir]

/-- The move command of `main` (line 148). -/
def mvCmd (cfg : Config) (w : ToolWorld) : List String :=
  ["mv", staged_path cfg w.temp_dir, cfg.output]

/-- The cleanup command of `main` (line 149). -/
def rmCmd (w : ToolWorld) : List String :=
  ["rm", "-fr", w.temp_dir]

/-- `main` (lines 106–149) as explicit state passing: given the
configuration, the tool oracle and the prior content at the output path,
it returns the outcome together with the resulting file-system state.
Every intermediate write lands inside the working directory; the output
path changes only at the `mv` step, and the working directory is removed
only at the final `rm` step. When an objdump or nm stream fails, every
symbol it yielded was already written to the symbol-list file before the
exit-code check raises. -/
def mainRun (cfg : Config) (w : ToolWorld) (prev : Option FileData) :
    Except ToolError Unit × FSState :=
  let fs0 : FSState := ⟨prev, some ⟨none, none, none⟩⟩
  let mpath := merged_object_path cfg w.temp_dir
  let mergedObj : FileData := .merged cfg.archives cfg.is_final_link
  match runTool .link (link_command cfg mpath) w.linkExit with
  | .error e => (.error e, fs0)
  | .ok _ =>
    match (if cfg.localize_hidden then
             iter_hidden_symbols cfg.objdump mpath w.objdumpLines w.objdumpExit
           else .ok []) with
    | .error e =>
      (.error e, ⟨prev, some ⟨some mergedObj,
        some (writeSyms [] (if cfg.localize_hidden then iterHiddenList w.objdumpLines else [])),
        none⟩⟩)
    | .ok hid =>
      let fileAfterHidden := writeSyms [] hid
      match iter_global_symbols cfg.nm mpath w.nmLines w.nmExit with
      | .error e =>
        (.error e, ⟨prev, some ⟨some mergedObj,
          some (writeGlobals cfg.keep_global_regex fileAfterHidden (iterGlobalList w.nmLines)),
          none⟩⟩)
      | .ok gl =>
        let file := writeGlobals cfg.keep_global_regex fileAfterHidden gl
        match runTool .objcopy (objcopyCmd cfg w) w.objcopyExit with
        | .error e => (.error e, ⟨prev, some ⟨some mergedObj, some file, none⟩⟩)
        | .ok _ =>
          let locObj : FileData := .localized mergedObj file
          match runTool .ar (arCmd cfg w) w.arExit with
          | .error e => (.error e, ⟨prev, some ⟨some locObj, some file, none⟩⟩)
          | .ok _ =>
            let arch : FileData := .archived locObj (output_archive_name cfg)
            match runTool .ranlib (ranlibCmd cfg w) w.ranlibExit with
            | .error e =>
              (.error e, ⟨prev, some ⟨some locObj, some file, some arch⟩⟩)
            | .ok _ =>
              let idx : FileData := .indexed arch
              match runTool .mv (mvCmd cfg w) w.mvExit with
              | .error e =>
                (.error e, ⟨prev, some ⟨some locObj, some file, some idx⟩⟩)
              | .ok _ =>
                match runTool .rm (rmCmd w) w.rmExit with
                | .error e =>
                  (.error e, ⟨some idx, some ⟨some locObj, some file, none⟩⟩)
                | .ok _ => (.ok (), ⟨some idx, none⟩)

/-- The objcopy-demotion phase onward (lines 145–149), once the
classification has succeeded: the symbol-list file holds the full
demotion list and each remaining step is a checked tool invocation. -/
def publishRun (cfg : Config) (w : ToolWorld) (prev : Option FileData) :
    Except ToolError Unit × FSState :=
  let mergedObj : FileData := .merged cfg.archives cfg.is_final_link
  let file := classifyWorld cfg w
  match runTool .objcopy (objcopyCmd cfg w) w.objcopyExit with
  | .error e => (.error e, ⟨prev, some ⟨some mergedObj, some file, none⟩⟩)
  | .ok _ =>
    let locObj : FileData := .localized mergedObj file
    match runTool .ar (arCmd cfg w) w.arExit with
    | .error e => (.error e, ⟨prev, some ⟨some locObj, some file, none⟩⟩)
    | .ok _ =>
      let arch : FileData := .archived locObj (output_archive_name cfg)
      match runTool .ranlib (ranlibCmd cfg w) w.ranlibExit with
      | .error e => (.error e, ⟨prev, some ⟨some locObj, some file, some arch⟩⟩)
      | .ok _ =>
        let idx : FileData := .indexed arch
        match runTool .mv (mvCmd cfg w) w.mvExit with
        | .error e => (.error e, ⟨prev, some ⟨some locObj, some file, some idx⟩⟩)
        | .ok _ =>
          match runTool .rm (rmCmd w) w.rmExit with
          | .error e => (.error e, ⟨some idx, some ⟨some locObj, some file, none⟩⟩)
          | .ok _ => (.ok (), ⟨some idx, none⟩)

theorem foldl_push (syms acc : List String) :
    List.foldl (fun a s => a ++ [s]) acc syms = acc ++ syms := by
  induction syms generalizing acc with
  | nil => simp
  | cons s ss ih => rw [List.foldl_cons, ih]; simp

theorem foldl_filter_push (keep : String → Bool) (syms acc : List String) :
    List.foldl (fun a s => if keep s then a else a ++ [s]) acc syms =
      acc ++ syms.filter (fun s => !keep s) := by
  induction syms generalizing acc with
  | nil => simp
  | cons s ss ih =>
    rw [List.foldl_cons]
    by_cases hk : keep s
    · rw [if_pos hk, ih, List.filter_cons]
      simp [hk]
    · rw [if_neg hk, ih, List.filter_cons]
      simp [hk]

theorem writeSyms_eq (syms acc : List String) : writeSyms acc syms = acc ++ syms :=
  foldl_push syms acc

theorem writeGlobals_eq (keep : String → Bool) (syms acc : List String) :
    writeGlobals keep acc syms = acc ++ syms.filter (fun s => !keep s) :=
  foldl_filter_push keep syms acc

theorem classifyOut_eq (lh : Bool) (keep : String → Bool) (od nmL : List String) :
    classifyOut lh keep od nmL =
      (if lh then iterHiddenList od else []) ++
        (iterGlobalList nmL).filter (fun s => !keep s) := by
  rw [classifyOut, writeGlobals_eq, writeSyms_eq, List.nil_append]

theorem trailingWordRun_all (cs : List Char) :
    (trailingWordRun cs).all isWordChar = true := by
  rw [trailingWordRun, List.all_eq_true]
  intro x hx
  rw [List.mem_reverse] at hx
  exact List.mem_takeWhile_imp hx

theorem hiddenLineSymbol_some {line s : String} (h : hiddenLineSymbol line = some s) :
    s.toList = trailingWordRun line.toList ∧ trailingWordRun line.toList ≠ [] := by
  rw [hiddenLineSymbol] at h
  by_cases h1 : trailingWordRun line.toList = []
  · rw [if_pos h1] at h
    cases h
  · refine ⟨?_, h1⟩
    rw [if_neg h1] at h
    by_cases h2 : listEndsWith ".hidden ".toList
        (line.toList.take (line.toList.length - (trailingWordRun line.toList).length)) = true
    · rw [if_pos h2] at h
      cases h
      rfl
    · rw [if_neg h2] at h
      cases h

theorem globalLineSymbol_some {line s : String} (h : globalLineSymbol line = some s) :
    s.toList = trailingWordRun line.toList ∧ trailingWordRun line.toList ≠ [] := by
  rw [globalLineSymbol] at h
  by_cases h1 : trailingWordRun line.toList = []
  · rw [if_pos h1] at h
    cases h
  · rw [if_neg h1] at h
    cases h
    exact ⟨rfl, h1⟩

theorem hiddenPassLine_some {line s : String} (h : hiddenPassLine line = some s) :
    hiddenLineSymbol line = some s ∧ pcThunkMatch s = false := by
  rw [hiddenPassLine] at h
  cases hh : hiddenLineSymbol line with
  | none => rw [hh] at h; cases h
  | some x =>
    rw [hh] at h
    dsimp only at h
    by_cases hx : pcThunkMatch x = true
    · rw [if_pos hx] at h; cases h
    · rw [if_neg hx] at h
      cases h
      exact ⟨rfl, by simpa using hx⟩

theorem mem_iterHiddenList {lines : List String} {s : String}
    (h : s ∈ iterHiddenList lines) :
    pcThunkMatch s = false ∧ s.toList ≠ [] ∧ s.toList.all isWordChar = true := by
  rw [iterHiddenList, List.mem_filterMap] at h
  obtain ⟨line, _, hline⟩ := h
  obtain ⟨hsym, hpc⟩ := hiddenPassLine_some hline
  obtain ⟨hs, hne⟩ := hiddenLineSymbol_some hsym
  exact ⟨hpc, by rw [hs]; exact hne, by rw [hs]; exact trailingWordRun_all _⟩

theorem mem_iterGlobalList {lines : List String} {s : String}
    (h : s ∈ iterGlobalList lines) :
    s.toList ≠ [] ∧ s.toList.all isWordChar = true := by
  rw [iterGlobalList, List.mem_filterMap] at h
  obtain ⟨line, _, hline⟩ := h
  obtain ⟨hs, hne⟩ := globalLineSymbol_some hline
  exact ⟨by rw [hs]; exact hne, by rw [hs]; exact trailingWordRun_all _⟩

theorem listStartsWith_iff (p l : List Char) :
    listStartsWith p l = true ↔ ∃ t, l = p ++ t := by
  induction p generalizing l with
  | nil => simp [listStartsWith]
  | cons x xs ih =>
    cases l with
    | nil => simp [listStartsWith]
    | cons c cs =>
      rw [listStartsWith, Bool.and_eq_true, beq_iff_eq, ih]
      constructor
      · rintro ⟨rfl, t, rfl⟩
        exact ⟨t, rfl⟩
      · rintro ⟨t, ht⟩
        rw [List.cons_append] at ht
        cases ht
        exact ⟨rfl, t, rfl⟩

theorem thunkPat_ne_nil : thunkPat ≠ [] := by decide

theorem thunkSearch_iff (cs : List Char) :
    thunkSearch cs = true ↔
      ∃ mid rest, cs = mid ++ thunkPat ++ rest ∧
        mid.all (fun c => !isPySpace c) = true := by
  induction cs with
  | nil =>
    rw [thunkSearch]
    simp only [Bool.false_eq_true, false_iff]
    rintro ⟨mid, rest, h, -⟩
    rcases List.append_eq_nil.mp (List.append_eq_nil.mp h.symm).1 with ⟨-, h2⟩
    exact thunkPat_ne_nil h2
  | cons c rest ih =>
    rw [thunkSearch, Bool.or_eq_true, Bool.and_eq_true, listStartsWith_iff, ih]
    constructor
    · rintro (⟨t, ht⟩ | ⟨hc, mid, r, hr, hall⟩)
      · exact ⟨[], t, by simpa using ht, rfl⟩
      · refine ⟨c :: mid, r, by simp [hr], ?_⟩
        rw [List.all_cons, hc, Bool.true_and]
        exact hall
    · rintro ⟨mid, r, hr, hall⟩
      cases mid with
      | nil =>
        exact Or.inl ⟨r, by simpa using hr⟩
      | cons m ms =>
        rw [List.cons_append, List.cons_append] at hr
        cases hr
        rw [List.all_cons, Bool.and_eq_true] at hall
        exact Or.inr ⟨hall.1, ms, r, rfl, hall.2⟩

theorem pcThunkMatch_iff (s : String) :
    pcThunkMatch s = true ↔
      ∃ mid rest, s.toList = '_' :: '_' :: (mid ++ thunkPat ++ rest) ∧
        mid.all (fun c => !isPySpace c) = true := by
  rw [pcThunkMatch, Bool.and_eq_true, listStartsWith_iff, thunkSearch_iff]
  constructor
  · rintro ⟨⟨t, ht⟩, mid, rest, hdrop, hall⟩
    refine ⟨mid, rest, ?_, hall⟩
    have hts : s.toList = '_' :: '_' :: t := by simpa using ht
    rw [hts] at hdrop ⊢
    simpa using hdrop
  · rintro ⟨mid, rest, hts, hall⟩
    refine ⟨⟨mid ++ thunkPat ++ rest, by simpa using hts⟩, mid, rest, ?_, hall⟩
    rw [hts]
    rfl

theorem mainRun_link_err (cfg : Config) (w : ToolWorld) (prev : Option FileData)
    (h1 : w.linkExit ≠ 0) :
    mainRun cfg w prev =
      (.error ⟨.link, link_command cfg (merged_object_path cfg w.temp_dir), w.linkExit⟩,
       ⟨prev, some ⟨none, none, none⟩⟩) := by
  simp [mainRun, runTool, h1]

theorem mainRun_objdump_err (cfg : Config) (w : ToolWorld) (prev : Option FileData)
    (h1 : w.linkExit = 0) (hl : cfg.localize_hidden = true) (h2 : w.objdumpExit ≠ 0) :
    mainRun cfg w prev =
      (.error ⟨.objdump, objdumpCmd cfg.objdump (merged_object_path cfg w.temp_dir),
          w.objdumpExit⟩,
       ⟨prev, some ⟨some (.merged cfg.archives cfg.is_final_link),
          some (iterHiddenList w.objdumpLines), none⟩⟩) := by
  simp [mainRun, runTool, iter_hidden_symbols, writeSyms_eq, h1, hl, h2]

theorem mainRun_classified (cfg : Config) (w : ToolWorld) (prev : Option FileData)
    (h1 : w.linkExit = 0) (hod : cfg.localize_hidden = false ∨ w.objdumpExit = 0)
    (h3 : w.nmExit = 0) :
    mainRun cfg w prev = publishRun cfg w prev := by
  cases hl : cfg.localize_hidden with
  | false =>
    simp [mainRun, publishRun, runTool, iter_hidden_symbols, iter_global_symbols,
      classifyWorld, classifyOut, writeSyms_eq, h1, h3, hl]
  | true =>
    have h2 : w.objdumpExit = 0 := by
      rcases hod with h | h
      · rw [hl] at h
        cases h
      · exact h
    simp [mainRun, publishRun, runTool, iter_hidden_symbols, iter_global_symbols,
      classifyWorld, classifyOut, writeSyms_eq, h1, h2, h3, hl]

theorem mainRun_nm_err (cfg : Config) (w : ToolWorld) (prev : Option FileData)
    (h1 : w.linkExit = 0) (hod : cfg.localize_hidden = false ∨ w.objdumpExit = 0)
    (h3 : w.nmExit ≠ 0) :
    mainRun cfg w prev =
      (.error ⟨.nm, nmCmd cfg.nm (merged_object_path cfg w.temp_dir), w.nmExit⟩,
       ⟨prev, some ⟨some (.merged cfg.archives cfg.is_final_link),
          some (classifyWorld cfg w), none⟩⟩) := by
  cases hl : cfg.localize_hidden with
  | false =>
    simp [mainRun, runTool, iter_hidden_symbols, iter_global_symbols,
      classifyWorld, classifyOut, writeSyms_eq, h1, h3, hl]
  | true =>
    have h2 : w.objdumpExit = 0 := by
      rcases hod with h | h
      · rw [hl] at h
        cases h
      · exact h
    simp [mainRun, runTool, iter_hidden_symbols, iter_global_symbols,
      classifyWorld, classifyOut, writeSyms_eq, h1, h2, h3, hl]

theorem publishRun_objcopy_err (cfg : Config) (w : ToolWorld) (prev : Option FileData)
    (h4 : w.objcopyExit ≠ 0) :
    publishRun cfg w prev =
      (.error ⟨.objcopy, objcopyCmd cfg w, w.objcopyExit⟩,
       ⟨prev, some ⟨some (.merged cfg.archives cfg.is_final_link),
          some (classifyWorld cfg w), none⟩⟩) := by
  simp [publishRun, runTool, h4]

theorem publishRun_ar_err (cfg : Config) (w : ToolWorld) (prev : Option FileData)
    (h4 : w.objcopyExit = 0) (h5 : w.arExit ≠ 0) :
    publishRun cfg w prev =
      (.error ⟨.ar, arCmd cfg w, w.arExit⟩,
       ⟨prev, some ⟨some (demotedObject cfg w), some (classifyWorld cfg w), none⟩⟩) := by
  simp [publishRun, runTool, demotedObject, h4, h5]

theorem publishRun_ranlib_err (cfg : Config) (w : ToolWorld) (prev : Option FileData)
    (h4 : w.objcopyExit = 0) (h5 : w.arExit = 0) (h6 : w.ranlibExit ≠ 0) :
    publishRun cfg w prev =
      (.error ⟨.ranlib, ranlibCmd cfg w, w.ranlibExit⟩,
       ⟨prev, some ⟨some (demotedObject cfg w), some (classifyWorld cfg w),
          some (.archived (demotedObject cfg w) (output_archive_name cfg))⟩⟩) := by
  simp [publishRun, runTool, demotedObject, h4, h5, h6]

theorem publishRun_mv_err (cfg : Config) (w : ToolWorld) (prev : Option FileData)
    (h4 : w.objcopyExit = 0) (h5 : w.arExit = 0) (h6 : w.ranlibExit = 0)
    (h7 : w.mvExit ≠ 0) :
    publishRun cfg w prev =
      (.error ⟨.mv, mvCmd cfg w, w.mvExit⟩,
       ⟨prev, some ⟨some (demotedObject cfg w), some (classifyWorld cfg w),
          some (stagedArtifact cfg w)⟩⟩) := by
  simp [publishRun, runTool, demotedObject, stagedArtifact, h4, h5, h6, h7]

theorem publishRun_rm_err (cfg : Config) (w : ToolWorld) (prev : Option FileData)
    (h4 : w.objcopyExit = 0) (h5 : w.arExit = 0) (h6 : w.ranlibExit = 0)
    (h7 : w.mvExit = 0) (h8 : w.rmExit ≠ 0) :
    publishRun cfg w prev =
      (.error ⟨.rm, rmCmd w, w.rmExit⟩,
       ⟨some (stagedArtifact cfg w),
        some ⟨some (demotedObject cfg w), some (classifyWorld cfg w), none⟩⟩) := by
  simp [publishRun, runTool, demotedObject, stagedArtifact, h4, h5, h6, h7, h8]

theorem publishRun_ok (cfg : Config) (w : ToolWorld) (prev : Option FileData)
    (h4 : w.objcopyExit = 0) (h5 : w.arExit = 0) (h6 : w.ranlibExit = 0)
    (h7 : w.mvExit = 0) (h8 : w.rmExit = 0) :
    publishRun cfg w prev = (.ok (), ⟨some (stagedArtifact cfg w), none⟩) := by
  simp [publishRun, runTool, demotedObject, stagedArtifact, h4, h5, h6, h7, h8]

/-- The global-pass contribution to the demotion list (lines 140–143):
each yielded symbol is written unless the keep-global pattern matches. -/
def globalSelected (keep : String → Bool) (lines : List String) : List String :=
  writeGlobals keep [] (iterGlobalList lines)

/-- A keep-global predicate matching no symbol name, as the default-free
test scenarios use. -/
def keepNone : String → Bool := fun _ => false

/-- The `re.search` predicate of the keep-global pattern `^my_api_` used
by the spec examples: it holds exactly for names starting `my_api_`. -/
def keepMyApi : String → Bool := fun s => listStartsWith "my_api_".toList s.toList

/-- A concrete configuration for witness runs. -/
def cfg0 : Config :=
  { cc := "cc", cflags := ["-O2"], objcopy := "objcopy", objdump := "objdump",
    ar := "ar", nm := "nm", ranlib := "ranlib", localize_hidden := true,
    keep_global_regex := keepNone, is_final_link := false,
    output := "/out/libdispatch.a", archives := ["/in/a.a", "/in/b.a"] }

/-- A concrete world where every external tool exits with status zero. -/
def w_ok : ToolWorld :=
  { temp_dir := "/tmp/work_libdispatch", linkExit := 0,
    objdumpLines := ["0000 l F .text 0 .hidden secret"], objdumpExit := 0,
    nmLines := ["libdispatch.o: 0000000000000000 T foo"], nmExit := 0,
    objcopyExit := 0, arExit := 0, ranlibExit := 0, mvExit := 0, rmExit := 0 }

/-- The same world except the merge link fails with exit code 1. -/
def w_linkFail : ToolWorld := { w_ok with linkExit := 1 }

/-- A world with the same tool output text as `w_ok` but a different
working directory and a failing cleanup step. -/
def w_alt : ToolWorld := { w_ok with temp_dir := "/tmp/other", rmExit := 7 }

/-- C1: if any step before the final move fails — the merge link, the
hidden or global symbol scan, the binary-editor demotion, the archiver,
or the index regeneration — then the content at the final output path
(present or absent) is exactly the prior content: `mainRun` writes the
output path only at the `mv` step. -/
theorem C1_early_failure_leaves_output (cfg : Config) (w : ToolWorld)
    (prev : Option FileData) (e : ToolError)
    (h : (mainRun cfg w prev).1 = .error e)
    (hmv : e.tool ≠ .mv) (hrm : e.tool ≠ .rm) :
    (mainRun cfg w prev).2.finalOutput = prev := by
  by_cases h1 : w.linkExit = 0
  · by_cases hod2 : cfg.localize_hidden = true ∧ w.objdumpExit ≠ 0
    · rw [mainRun_objdump_err cfg w prev h1 hod2.1 hod2.2]
    · have hod : cfg.localize_hidden = false ∨ w.objdumpExit = 0 := by
        rcases Bool.eq_false_or_eq_true cfg.localize_hidden with hl | hl
        · right
          by_contra hb
          exact hod2 ⟨hl, hb⟩
        · exact Or.inl hl
      by_cases h3 : w.nmExit = 0
      · rw [mainRun_classified cfg w prev h1 hod h3] at h ⊢
        by_cases h4 : w.objcopyExit = 0
        · by_cases h5 : w.arExit = 0
          · by_cases h6 : w.ranlibExit = 0
            · by_cases h7 : w.mvExit = 0
              · by_cases h8 : w.rmExit = 0
                · rw [publishRun_ok cfg w prev h4 h5 h6 h7 h8] at h
                  exact Except.noConfusion h
                · rw [publishRun_rm_err cfg w prev h4 h5 h6 h7 h8] at h
                  injection h with he
                  exact absurd (by rw [← he]) hrm
              · rw [publishRun_mv_err cfg w prev h4 h5 h6 h7]
            · rw [publishRun_ranlib_err cfg w prev h4 h5 h6]
          · rw [publishRun_ar_err cfg w prev h4 h5]
        · rw [publishRun_objcopy_err cfg w prev h4]
      · rw [mainRun_nm_err cfg w prev h1 hod h3]
  · rw [mainRun_link_err cfg w prev h1]

/-- Witness for C1: a run whose merge link fails leaves the preexisting
output content in place. -/
theorem C1_early_failure_leaves_output_witness :
    (mainRun cfg0 w_linkFail (some (.preexisting "old"))).2.finalOutput =
      some (.preexisting "old") :=
  C1_early_failure_leaves_output cfg0 w_linkFail (some (.preexisting "old"))
    ⟨.link, link_command cfg0 (merged_object_path cfg0 w_linkFail.temp_dir), 1⟩
    rfl (by decide) (by decide)

/-- C2: when every invoked external tool exits with status zero, the run
succeeds, the final output path holds the staged indexed archive, and
the working directory has been removed. -/
theorem C2_success_publishes_and_removes_workdir (cfg : Config) (w : ToolWorld)
    (prev : Option FileData) (h1 : w.linkExit = 0)
    (hod : cfg.localize_hidden = false ∨ w.objdumpExit = 0) (h3 : w.nmExit = 0)
    (h4 : w.objcopyExit = 0) (h5 : w.arExit = 0) (h6 : w.ranlibExit = 0)
    (h7 : w.mvExit = 0) (h8 : w.rmExit = 0) :
    mainRun cfg w prev = (.ok (), ⟨some (stagedArtifact cfg w), none⟩) := by
  rw [mainRun_classified cfg w prev h1 hod h3, publishRun_ok cfg w prev h4 h5 h6 h7 h8]

/-- Witness for C2: a concrete all-successful run publishes the staged
archive and removes the working directory. -/
theorem C2_success_publishes_and_removes_workdir_witness :
    mainRun cfg0 w_ok (some (.preexisting "old")) =
      (.ok (), ⟨some (stagedArtifact cfg0 w_ok), none⟩) :=
  C2_success_publishes_and_removes_workdir cfg0 w_ok (some (.preexisting "old"))
    rfl (Or.inr rfl) rfl rfl rfl rfl rfl rfl

/-- C3: the hidden pass never yields a symbol matching the PIC-thunk
exclusion regex, and since every yielded name is a run of word
characters, the dotted name `__x86.get_pc_thunk.bx` in particular can
never be yielded. -/
theorem C3_hidden_pass_never_yields_pc_thunk (lines : List String) (s : String)
    (h : s ∈ iterHiddenList lines) :
    pcThunkMatch s = false ∧ s ≠ "__x86.get_pc_thunk.bx" := by
  obtain ⟨hpc, hne, hall⟩ := mem_iterHiddenList h
  refine ⟨hpc, ?_⟩
  rintro rfl
  exact absurd hall (by decide)

/-- Witness for C3 on a concrete objdump dump. -/
theorem C3_hidden_pass_never_yields_pc_thunk_witness :
    pcThunkMatch "secret" = false ∧ "secret" ≠ "__x86.get_pc_thunk.bx" :=
  C3_hidden_pass_never_yields_pc_thunk
    ["0000 l F .text 0 .hidden secret"] "secret" (by decide)

/-- C4 counterexample: with localize-hidden enabled, a hidden symbol
whose name matches the keep-global pattern is still placed on the
demotion list by the hidden pass, so the pipeline does demote a symbol
matching the keep-global pattern. -/
theorem C4_counterexample_hidden_pass_demotes_matching :
    keepMyApi "my_api_secret" = true ∧
    "my_api_secret" ∈ classifyOut true keepMyApi ["0000 .hidden my_api_secret"] [] := by
  decide

/-- C4 (amended): the global-symbol pass never selects a symbol matching
the keep-global predicate and always selects a yielded symbol that does
not match; consequently with localize-hidden disabled the whole demotion
list contains no matching symbol. The hidden pass, when enabled, is not
filtered by the keep-global pattern. -/
theorem C4_amended_global_pass_respects_keep (keep : String → Bool)
    (odLines nmLines : List String) (s : String) :
    (s ∈ globalSelected keep nmLines ↔
      s ∈ iterGlobalList nmLines ∧ keep s = false) ∧
    (s ∈ classifyOut false keep odLines nmLines → keep s = false) := by
  constructor
  · rw [globalSelected, writeGlobals_eq, List.nil_append, List.mem_filter]
    simp [Bool.not_eq_true']
  · intro h
    rw [classifyOut_eq] at h
    simp only [Bool.false_eq_true, if_false, List.nil_append] at h
    have h2 := List.mem_filter.mp h
    simpa [Bool.not_eq_true'] using h2.2

/-- Witness for C4 (amended): a non-matching global symbol is selected
for demotion, hence does not match the keep pattern. -/
theorem C4_amended_global_pass_respects_keep_witness :
    keepMyApi "internal_helper" = false :=
  (C4_amended_global_pass_respects_keep keepMyApi []
    ["0000000000000000 T internal_helper"] "internal_helper").2 (by decide)

/-- C5: the linker-driver command is, in order, the driver and extra
flags, the flags disabling startup objects, default libraries and
build-id, exactly one of the two relocatable-merge flags selected by
the final-link toggle, the whole-archive toggle enclosing exactly the
input archives in their given order, and the output object path inside
the working directory. -/
theorem C5_link_command_structure (cfg : Config) (td : String) :
    link_command cfg (merged_object_path cfg td) =
      [cfg.cc] ++ cfg.cflags ++
        ["-nostartfiles", "-nodefaultlibs", "-Wl,--build-id=none"] ++
        [if cfg.is_final_link then "-Wl,-Ur" else "-Wl,-r"] ++
        ["-Wl,--whole-archive"] ++ cfg.archives ++
        ["-Wl,--no-whole-archive", "-o", merged_object_path cfg td] := by
  simp [link_command]

/-- C6: the demotion list written by the classification block is the
hidden-pass output (nothing when localize-hidden is false) followed by
the keep-filtered global-pass output, with duplicates preserved. -/
theorem C6_classification_concatenation :
    (∀ (lh : Bool) (keep : String → Bool) (od nmL : List String),
      classifyOut lh keep od nmL =
        (if lh then iterHiddenList od else []) ++
          (iterGlobalList nmL).filter (fun s => !keep s)) ∧
    classifyOut true keepNone ["0 .hidden dup"] ["0000 T dup"] = ["dup", "dup"] :=
  ⟨classifyOut_eq, by decide⟩

/-- C7: an external invocation fails with an error carrying the invoked
command and its exit code exactly when the process exits non-zero, and
succeeds on a zero exit; for the two streaming passes the check applies
after the stream is exhausted, so a zero exit returns the full yielded
list and a non-zero exit fails regardless of the stream content. -/
theorem C7_invocation_error_iff_nonzero_exit (t : Tool) (cmd : List String)
    (exit : Nat) (odp obj nmp : String) (lines : List String) :
    (runTool t cmd exit = .ok () ↔ exit = 0) ∧
    (∀ e : ToolError, runTool t cmd exit = .error e ↔
      exit ≠ 0 ∧ e = ⟨t, cmd, exit⟩) ∧
    (iter_hidden_symbols odp obj lines exit = .ok (iterHiddenList lines) ↔ exit = 0) ∧
    (∀ e : ToolError, iter_hidden_symbols odp obj lines exit = .error e ↔
      exit ≠ 0 ∧ e = ⟨.objdump, objdumpCmd odp obj, exit⟩) ∧
    (iter_global_symbols nmp obj lines exit = .ok (iterGlobalList lines) ↔ exit = 0) ∧
    (∀ e : ToolError, iter_global_symbols nmp obj lines exit = .error e ↔
      exit ≠ 0 ∧ e = ⟨.nm, nmCmd nmp obj, exit⟩) := by
  by_cases h : exit = 0 <;>
    simp [runTool, iter_hidden_symbols, iter_global_symbols, h, eq_comm]

/-- C8: classification is deterministic — two runs seeing the same
dumper and lister output text under the same configuration produce the
same demotion list, whatever else differs between the runs. -/
theorem C8_classification_deterministic (cfg : Config) (w₁ w₂ : ToolWorld)
    (hod : w₁.objdumpLines = w₂.objdumpLines) (hnm : w₁.nmLines = w₂.nmLines) :
    classifyWorld cfg w₁ = classifyWorld cfg w₂ := by
  rw [classifyWorld, classifyWorld, hod, hnm]

/-- Witness for C8: two worlds with equal tool output but different
working directories and cleanup outcomes classify identically. -/
theorem C8_classification_deterministic_witness :
    classifyWorld cfg0 w_ok = classifyWorld cfg0 w_alt :=
  C8_classification_deterministic cfg0 w_ok w_alt rfl rfl

/-- C9: the PIC-thunk exclusion is anchored at the start of the name —
it matches exactly the names of the form two underscores, then a
non-space run, then `get_pc_thunk` — and a hidden word-character symbol
containing `get_pc_thunk` without the leading underscores, such as
`x__get_pc_thunk_bx`, is yielded for demotion. -/
theorem C9_pc_thunk_exclusion_anchored :
    (∀ s : String, pcThunkMatch s = true ↔
      ∃ mid rest, s.toList = '_' :: '_' :: (mid ++ thunkPat ++ rest) ∧
        mid.all (fun c => !isPySpace c) = true) ∧
    iterHiddenList ["0 .hidden x__get_pc_thunk_bx"] = ["x__get_pc_thunk_bx"] :=
  ⟨pcThunkMatch_iff, by decide⟩

/-- C10: every name on the demotion list is a nonempty run of word
characters (the trailing content of some tool output line); lines
without a trailing word run are skipped at extraction, so a name
containing a non-word character can never be demoted. -/
theorem C10_symbols_are_word_runs (lh : Bool) (keep : String → Bool)
    (od nmL : List String) (s : String) (h : s ∈ classifyOut lh keep od nmL) :
    s.toList ≠ [] ∧ s.toList.all isWordChar = true := by
  rw [classifyOut_eq] at h
  rcases List.mem_append.mp h with h | h
  · cases lh with
    | false => simp at h
    | true =>
      simp only [if_pos] at h
      obtain ⟨-, hne, hall⟩ := mem_iterHiddenList h
      exact ⟨hne, hall⟩
  · have h2 := List.mem_filter.mp h
    exact mem_iterGlobalList h2.1

/-- Witness for C10 at a concrete demotion list. -/
theorem C10_symbols_are_word_runs_witness :
    "foo".toList ≠ [] ∧ "foo".toList.all isWordChar = true :=
  C10_symbols_are_word_runs true keepNone ["0 .hidden foo"] [] "foo" (by decide)

end StaticLink
